import Mathlib

/-!
Verification development for the `logdog` logging library.

The Go sources of the primary package (`logging.go`, `record.go`, `logger.go`,
`handler.go`, `formater.go`, `register.go`) are shallowly embedded below:
pure functions become Lean functions, the mutable registry/logger state is
passed explicitly, Go `panic` becomes `Except.error`, and the effect of a
handler's `Emit` on its output sink is recorded as a list of written lines.
Go `int` is modelled as `Int`; Go `interface{}` values reaching the record
pipeline are modelled by the closed `GoValue` type (string, integer, or a
`Fields` map), which covers every shape the package itself produces or
inspects.  Go maps that the code only stores and iterates are modelled as
association lists.  External capabilities that are out of scope for the spec
(stdlib `fmt` rendering of nested maps, `when.Strftime` time formatting,
`json.Marshal` serialization, TTY detection) are modelled as explicit
executable stand-ins and are never load-bearing for any claim.
-/

namespace Logdog

/-! ## Level system (`logging.go`) -/

def NOTHING : Int := 0

def DEBUG : Int := 1

def INFO : Int := 2

def WARN : Int := 4

def WARNING : Int := 4

def ERROR : Int := 8

def NOTICE : Int := 16

def CRITICAL : Int := 32

def ALL : Int := 255

def NothingLevel : Int := 0

/-- Initial contents of the `levelNames` map (name to level). -/
def levelNames0 : List (String × Int) :=
  [("NOTHING", NOTHING), ("DEBUG", DEBUG), ("INFO", INFO), ("WARN", WARN),
   ("WARNING", WARNING), ("ERROR", ERROR), ("NOTICE", NOTICE), ("CRITICAL", CRITICAL)]

/-- Initial contents of the `nameLevels` map (level to name). -/
def nameLevels0 : List (Int × String) :=
  [(NOTHING, "NOTHING"), (DEBUG, "DEBUG"), (INFO, "INFO"), (WARN, "WARN"),
   (ERROR, "ERROR"), (NOTICE, "NOTICE"), (CRITICAL, "CRITICAL")]

/-- The level values registered in the initial tables. -/
def registeredLevels : List Int := [NOTHING, DEBUG, INFO, WARN, ERROR, NOTICE, CRITICAL]

/-- GetLevelName gets level's name; unregistered levels yield `"level <N>"`.
The current (mutable in Go) `nameLevels` table is passed explicitly. -/
def GetLevelName (tbl : List (Int × String)) (level : Int) : String :=
  match tbl.lookup level with
  | some v => v
  | none => "level " ++ toString level

/-- GetLevelByName gets a level value by name; the Go code panics on an
unknown name, modelled as `Except.error` carrying the panic message. -/
def GetLevelByName (tbl : List (String × Int)) (levelname : String) : Except String Int :=
  match tbl.lookup levelname with
  | some v => Except.ok v
  | none => Except.error ("can not find level by name: " ++ levelname)

/-! ## Go values and the parts of stdlib `fmt` the package relies on -/

/-- Dynamic (`interface{}`) values flowing through records: strings, Go ints,
and `Fields` maps (`map[string]interface{}`, modelled as an association
list). -/
inductive GoValue where
  | str : String → GoValue
  | int : Int → GoValue
  | fieldsv : List (String × GoValue) → GoValue

/-- Type `Fields` from `record.go` (`map[string]interface{}`). -/
def Fields := List (String × GoValue)

def GoValue.isStr : GoValue → Bool
  | .str _ => true
  | _ => false

/-- Default (`%v`) rendering of an atomic value; the rendering of a map
nested inside another map is an external `fmt` detail, truncated here (no
claim depends on it). -/
def goAtom : GoValue → String
  | .str s => s
  | .int n => toString n
  | .fieldsv _ => "map[...]"

/-- Default (`%v`) rendering of a `GoValue`, mirroring Go's `fmt` for the
value shapes the package produces. -/
def goString : GoValue → String
  | .str s => s
  | .int n => toString n
  | .fieldsv f => "map[" ++ String.intercalate " " (f.map (fun kv => kv.1 ++ ":" ++ goAtom kv.2)) ++ "]"

/-- Behaviour of `fmt.Sprint`: operands are concatenated, and a space is
added between two operands only when neither is a string. -/
def fmtSprint : List GoValue → String
  | [] => ""
  | [a] => goString a
  | a :: b :: rest =>
      goString a ++ (if a.isStr || b.isStr then "" else " ") ++ fmtSprint (b :: rest)

/-- Rendering of one `fmt` verb applied to one operand (verbs `s`, `d`, `v`
are the ones the package uses; mismatches produce Go's `%!verb(...)`
artifacts). -/
def renderVerb (c : Char) (v : GoValue) : String :=
  if c = 's' then
    match v with
    | .str s => s
    | .int n => "%!s(int=" ++ toString n ++ ")"
    | .fieldsv f => goString (.fieldsv f)
  else if c = 'd' then
    match v with
    | .int n => toString n
    | .str s => "%!d(string=" ++ s ++ ")"
    | .fieldsv f => "%!d(" ++ goString (.fieldsv f) ++ ")"
  else goString v

def isFmtVerb (c : Char) : Bool := c = 's' || c = 'd' || c = 'v'

/-- Scanner for `fmt.Sprintf`: format directives consume operands
positionally; missing and extra operands produce Go's diagnostic
artifacts rather than failures. -/
def fmtSprintfAux : List Char → List GoValue → List Char
  | [], [] => []
  | [], a :: rest => ("%!(EXTRA " ++ String.intercalate ", " ((a :: rest).map goString) ++ ")").data
  | '%' :: c :: rest, args =>
      if c = '%' then '%' :: fmtSprintfAux rest args
      else if isFmtVerb c then
        match args with
        | [] => ("%!" ++ String.mk [c] ++ "(MISSING)").data ++ fmtSprintfAux rest []
        | a :: args' => (renderVerb c a).data ++ fmtSprintfAux rest args'
      else ("%!" ++ String.mk [c] ++ "(NOVERB)").data ++ fmtSprintfAux rest args
  | ['%'], _ => "%!(NOVERB)".data
  | c :: rest, args => c :: fmtSprintfAux rest args

/-- Behaviour of `fmt.Sprintf` for the verbs the package uses. -/
def fmtSprintf (format : String) (args : List GoValue) : String :=
  String.mk (fmtSprintfAux format.data args)

/-! ## LogRecord (`record.go`) -/

structure LogRecord where
  Name : String
  Level : Int
  LevelName : String
  PathName : String
  FileName : String
  FuncName : String
  ShortFuncName : String
  Line : Int
  Time : Nat
  Msg : String
  Args : List GoValue
  Fields : List (String × GoValue)

/-- The trailing segment of `s` after the last occurrence of `sep`
(the whole string when `sep` does not occur), as computed by
`path.Split` / `strings.LastIndex` plus slicing in `record.go`. -/
def afterLastChar (sep : Char) (s : String) : String :=
  String.mk ((s.data.reverse.takeWhile (fun c => c ≠ sep)).reverse)

/-- Method `LogRecord.GetMessage`: empty template means `fmt.Sprint` of the
args, otherwise `fmt.Sprintf` of template and args. -/
def LogRecord.GetMessage (r : LogRecord) : String :=
  if r.Msg = "" then fmtSprint r.Args else fmtSprintf r.Msg r.Args

/-- Method `LogRecord.ExtractFieldsFromArgs`: when the last arg is a
`Fields` map it is removed from `Args` and stored in `Fields`; otherwise
the record is unchanged. -/
def LogRecord.ExtractFieldsFromArgs (r : LogRecord) : LogRecord :=
  match r.Args.getLast? with
  | some (GoValue.fieldsv f) => { r with Args := r.Args.dropLast, Fields := f }
  | _ => r

/-- Function `NewLogRecord`.  The current level-name table and the creation
time (`time.Now()`) are passed explicitly. -/
def NewLogRecord (tbl : List (Int × String)) (now : Nat) (name : String) (level : Int)
    (pathname : String) (funcname : String) (line : Int) (msg : String)
    (args : List GoValue) : LogRecord :=
  let funcName := afterLastChar '/' funcname
  LogRecord.ExtractFieldsFromArgs
    { Name := name
      Level := level
      LevelName := GetLevelName tbl level
      PathName := pathname
      FileName := afterLastChar '/' pathname
      FuncName := funcName
      ShortFuncName := afterLastChar '.' funcName
      Line := line
      Time := now
      Msg := msg
      Args := args
      Fields := [] }

/-! ## Formatter engine (`formater.go`) -/

/-- Modelled from the spec: time formatting (`when.Strftime`) is an
out-of-scope opaque capability; modelled as an injective executable
encoding of the timestamp and the date template.  No claim constrains its
output. -/
def Strftime (t : Nat) (datefmt : String) : String :=
  toString t ++ "@" ++ datefmt

def DEFAULT_FORMAT : String :=
  "%(color)[%(time)] [%(levelname)] [%(filename):%(lineno)]%(end_color) %(message)"

def DEFAULT_TIME_FORMAT : String := "%Y-%m-%d %H:%M:%S"

/-- FormatTime returns the creation time of the record as formatted text. -/
def FormatTime (r : LogRecord) (datefmt : String) : String :=
  Strftime r.Time (if datefmt = "" then DEFAULT_TIME_FORMAT else datefmt)

/-- The `ColorHash` map from level to ANSI color code. -/
def ColorHash : List (Int × Int) :=
  [(DEBUG, 34), (INFO, 32), (WARN, 33), (ERROR, 31), (NOTICE, 36), (CRITICAL, 31)]

/-- Function `colorHash`: the escape sequence for a level's color,
defaulting to white (37). -/
def colorHash (level : Int) : String :=
  let color := match ColorHash.lookup level with
    | some c => c
    | none => 37
  "\x1b[" ++ toString color ++ "m"

structure TextFormatter where
  Fmt : String
  DateFmt : String
  EnableColors : Bool

def DefaultFormatter : TextFormatter :=
  { Fmt := DEFAULT_FORMAT, DateFmt := DEFAULT_TIME_FORMAT, EnableColors := false }

def TerminalFormatter : TextFormatter :=
  { Fmt := DEFAULT_FORMAT, DateFmt := DEFAULT_TIME_FORMAT, EnableColors := true }

def NewTextFormatter : TextFormatter :=
  { Fmt := DEFAULT_FORMAT, DateFmt := DEFAULT_TIME_FORMAT, EnableColors := false }

/-- A regexp `\w` character: `[0-9A-Za-z_]`. -/
def isWordChar (c : Char) : Bool := c.isAlpha || c.isDigit || c = '_'

/-- One attempt of the regexp `%\(\w+\)` at the head of the input: on
success returns the placeholder word and the input remaining after the
closing parenthesis. -/
def tryTok : List Char → Option (List Char × List Char)
  | '%' :: '(' :: rest =>
    match rest.takeWhile isWordChar, rest.dropWhile isWordChar with
    | c0 :: w, ')' :: r' => some (c0 :: w, r')
    | _, _ => none
  | _ => none

/-- Fuelled scanner implementing `LogRecordFieldRegexp.ReplaceAllStringFunc`:
each leftmost `%(\w+)` match is replaced by `f` applied to the word, other
characters pass through.  The fuel is only a termination device; it never
runs out when initialized with the input length. -/
def replaceTokensF (f : List Char → List Char) : Nat → List Char → List Char
  | _, [] => []
  | 0, c :: rest => c :: rest
  | Nat.succ n, c :: rest =>
    match tryTok (c :: rest) with
    | some (w, r') => f w ++ replaceTokensF f n r'
    | none => c :: replaceTokensF f n rest

/-- Replacement of every `%(\w+)` placeholder in the input by `f` of the
placeholder word. -/
def replaceTokens (f : List Char → List Char) (l : List Char) : List Char :=
  replaceTokensF f l.length l

/-- The switch inside `TextFormatter.Format`'s replacement callback:
recognized placeholder words map to record values, everything else is
returned verbatim (as the full `%(word)` match). -/
def fieldSub (dateFmt : String) (color endColor : String) (r : LogRecord) (w : String) : String :=
  if w = "name" then r.Name
  else if w = "time" then FormatTime r dateFmt
  else if w = "levelno" then fmtSprintf "%d" [.int r.Level]
  else if w = "levelname" then r.LevelName
  else if w = "pathname" then r.PathName
  else if w = "filename" then r.FileName
  else if w = "funcname" then r.ShortFuncName
  else if w = "lineno" then fmtSprintf "%d" [.int r.Line]
  else if w = "message" then r.GetMessage
  else if w = "color" then color
  else if w = "end_color" then endColor
  else "%(" ++ w ++ ")"

/-- Method `TextFormatter.formatFields`: the suffix appended to the
template, rendering the record's field map between color markers. -/
def TextFormatter.formatFields (r : LogRecord) : String :=
  "%(color)" ++
    r.Fields.foldl (fun acc kv => acc ++ " " ++ kv.1 ++ "=" ++ goString kv.2) "" ++
    "%(end_color)"

/-- Method `TextFormatter.Format`.  The global `isColorTerminal` capability
(TTY detection, out of scope) is the explicit argument `ict`.  The Go method
returns `(string, error)` with the error always nil, modelled as the second
component being always `none`. -/
def TextFormatter.Format (ict : Bool) (tf : TextFormatter) (r : LogRecord) :
    String × Option String :=
  let fmt_str := if tf.Fmt = "" then DEFAULT_FORMAT else tf.Fmt
  let enableColors := if tf.Fmt = "" then false else tf.EnableColors
  let color := if ict && enableColors then colorHash r.Level else ""
  let endColor := if ict && enableColors then "\x1b[0m" else ""
  let composed := fmt_str ++ TextFormatter.formatFields r
  (String.mk (replaceTokens
      (fun w => (fieldSub tf.DateFmt color endColor r (String.mk w)).data)
      composed.data),
   none)

/-! ## JSON formatter (`formater.go`) -/

structure JsonFormatter where
  Datefmt : String

def NewJsonFormatter : JsonFormatter := { Datefmt := DEFAULT_TIME_FORMAT }

/-- JSON document values produced by `JsonFormatter.Format`. -/
inductive JValue where
  | s : String → JValue
  | i : Int → JValue
  | fv : List (String × GoValue) → JValue

/-- The `data` object built by `JsonFormatter.Format` before serialization:
fixed keys `time`, `message`, `file`, `line`, `level`, plus `_fields`
exactly when the record's (copied) field map is non-empty. -/
def JsonFormatter.formatData (jf : JsonFormatter) (r : LogRecord) : List (String × JValue) :=
  let fields := r.Fields
  [("time", JValue.s (FormatTime r jf.Datefmt)),
   ("message", JValue.s r.GetMessage),
   ("file", JValue.s r.FileName),
   ("line", JValue.i r.Line),
   ("level", JValue.s r.LevelName)]
  ++ (if fields.length > 0 then [("_fields", JValue.fv fields)] else [])

/-- Modelled from the spec: `json.Marshal` is external stdlib serialization;
modelled as a straightforward single-line renderer of the data object (its
exact text is immaterial to every claim, which are stated on
`formatData`). -/
def jsonRender (data : List (String × JValue)) : String :=
  let renderV : JValue → String := fun v =>
    match v with
    | JValue.s s => "\"" ++ s ++ "\""
    | JValue.i n => toString n
    | JValue.fv f =>
        "\x7b" ++ String.intercalate ","
          (f.map (fun kv => "\"" ++ kv.1 ++ "\":\"" ++ goAtom kv.2 ++ "\"")) ++ "\x7d"
  "\x7b" ++ String.intercalate ","
    (data.map (fun kv => "\"" ++ kv.1 ++ "\":" ++ renderV kv.2)) ++ "\x7d"

/-- Method `JsonFormatter.Format`: serializes the data object; the marshal
error branch is unreachable for this fixed key set, so the error component
is always `none`. -/
def JsonFormatter.Format (jf : JsonFormatter) (r : LogRecord) : String × Option String :=
  (jsonRender (jf.formatData r), none)

/-- The `Formatter` interface with its two implementations. -/
inductive Formatter where
  | text : TextFormatter → Formatter
  | json : JsonFormatter → Formatter

def Formatter.Format (ict : Bool) : Formatter → LogRecord → String × Option String
  | .text tf, r => tf.Format ict r
  | .json jf, r => jf.Format r

/-! ## Handlers (`handler.go`) -/

structure NullHandler where
  Name : String

structure StreamHandler where
  Name : String
  Level : Int
  Formatter : Formatter
  /-- Identity of the underlying writer (`os.Stderr` by default). -/
  sink : String
  /-- Lines written to the stream so far (the effect of `Fprintln`). -/
  output : List String

structure FileHandler where
  Name : String
  Level : Int
  Formatter : Formatter
  Path : String
  /-- Whether the file sink is still open (`Close` closes it). -/
  outputOpen : Bool
  /-- Lines written to the file so far (the effect of `Fprintln`). -/
  output : List String

/-- NewStreamHandler returns a new StreamHandler fully initialized:
stderr output, `TerminalFormatter`, level `NothingLevel`. -/
def NewStreamHandler : StreamHandler :=
  { Name := "", Level := NothingLevel, Formatter := Formatter.text TerminalFormatter,
    sink := "stderr", output := [] }

/-- NewFileHandler returns a new FileHandler fully initialized:
discard output, `DefaultFormatter`, level `NothingLevel`. -/
def NewFileHandler : FileHandler :=
  { Name := "", Level := NothingLevel, Formatter := Formatter.text DefaultFormatter,
    Path := "", outputOpen := true, output := [] }

def StreamHandler.Filter (hdlr : StreamHandler) (r : LogRecord) : Bool :=
  if r.Level < hdlr.Level then true else false

/-- StreamHandler.Emit writes the formatted record plus a newline to the
output writer. -/
def StreamHandler.Emit (ict : Bool) (hdlr : StreamHandler) (r : LogRecord) : StreamHandler :=
  { hdlr with output := hdlr.output ++ [(Formatter.Format ict hdlr.Formatter r).1 ++ "\n"] }

def StreamHandler.Handle (ict : Bool) (hdlr : StreamHandler) (r : LogRecord) : StreamHandler :=
  if hdlr.Filter r then hdlr else hdlr.Emit ict r

def FileHandler.Filter (hdlr : FileHandler) (r : LogRecord) : Bool :=
  if r.Level < hdlr.Level then true else false

def FileHandler.Emit (ict : Bool) (hdlr : FileHandler) (r : LogRecord) : FileHandler :=
  { hdlr with output := hdlr.output ++ [(Formatter.Format ict hdlr.Formatter r).1 ++ "\n"] }

def FileHandler.Handle (ict : Bool) (hdlr : FileHandler) (r : LogRecord) : FileHandler :=
  if hdlr.Filter r then hdlr else hdlr.Emit ict r

/-- The `Handler` interface with its implementations. -/
inductive Handler where
  | null : NullHandler → Handler
  | stream : StreamHandler → Handler
  | file : FileHandler → Handler

/-- Dispatch of `Filter` through the interface (`NullHandler.Filter` is
constantly true). -/
def Handler.Filter (h : Handler) (r : LogRecord) : Bool :=
  match h with
  | .null _ => true
  | .stream s => s.Filter r
  | .file f => f.Filter r

/-- Dispatch of `Handle` through the interface; the new handler state is
returned (`NullHandler.Handle` does nothing). -/
def Handler.Handle (ict : Bool) (h : Handler) (r : LogRecord) : Handler :=
  match h with
  | .null n => .null n
  | .stream s => .stream (s.Handle ict r)
  | .file f => .file (f.Handle ict r)

/-- Dispatch of `Close`: `NullHandler.Close` and `StreamHandler.Close` do
nothing and return nil; `FileHandler.Close` closes the file. -/
def Handler.Close (h : Handler) : Handler :=
  match h with
  | .null n => .null n
  | .stream s => .stream s
  | .file f => .file { f with outputOpen := false }

/-! ## Logger (`logger.go`) -/

def DefaultFuncCallDepth : Int := 2

structure Logger where
  Name : String
  Handlers : List Handler
  Level : Int
  funcCallDepth : Int
  runtimeCaller : Bool

/-- Logger.Filter checks if the logger should filter the record. -/
def Logger.Filter (lg : Logger) (r : LogRecord) : Bool :=
  if r.Level < lg.Level then true else false

/-- Logger.CallHandlers calls each registered handler, in list order. -/
def Logger.CallHandlers (ict : Bool) (lg : Logger) (r : LogRecord) : Logger :=
  { lg with Handlers := lg.Handlers.map (fun h => h.Handle ict r) }

/-- Logger.Handle: drop the record when filtered, otherwise fan out to all
handlers. -/
def Logger.Handle (ict : Bool) (lg : Logger) (r : LogRecord) : Logger :=
  if lg.Filter r then lg else lg.CallHandlers ict r

/-- Logger.AddHandler appends handlers to the logger. -/
def Logger.AddHandler (lg : Logger) (hs : List Handler) : Logger :=
  { lg with Handlers := lg.Handlers ++ hs }

/-- Logger.Close closes every attached handler in order (close errors are
reported to stderr and do not stop the loop). -/
def Logger.CloseAll (lg : Logger) : Logger :=
  { lg with Handlers := lg.Handlers.map Handler.Close }

/-- Logger.SetLevel defines the filter level. -/
def Logger.SetLevel (lg : Logger) (level : Int) : Logger :=
  { lg with Level := level }

/-! ## Registry (`register.go`) -/

/-- One `Register` table: a name-keyed map, modelled as an association
list.  Go stores `interface{}`; each of the four tables holds one kind of
value, so the model is generic in the stored type. -/
def RegisterT (α : Type) : Type := List (String × α)

def RegisterT.lookupName {α : Type} (tbl : RegisterT α) (name : String) : Option α :=
  List.lookup name tbl

/-- Method `Register.Register`: binds name and value; a duplicate name is a
panic (`Except.error` with the panic message). -/
def RegisterT.register {α : Type} (tbl : RegisterT α) (name : String) (v : α) :
    Except String (RegisterT α) :=
  match tbl.lookupName name with
  | some _ => Except.error ("Repeated registration key: " ++ name)
  | none => Except.ok ((name, v) :: tbl)

/-- The logger constructed by `GetLogger` for a fresh name (`new(Logger)`
plus the field initialization in `register.go`). -/
def newLoggerNamed (name : String) : Logger :=
  { Name := name, Handlers := [], Level := 0,
    funcCallDepth := DefaultFuncCallDepth, runtimeCaller := true }

/-- Function `GetLogger`: empty name maps to "root"; a registered logger is
returned as is, otherwise a fresh logger is constructed, the table is
checked a second time, and the fresh logger is registered.  Returns the
logger together with the (possibly grown) logger table. -/
def GetLogger (tbl : RegisterT Logger) (name : String) : Logger × RegisterT Logger :=
  let name' := if name = "" then "root" else name
  match tbl.lookupName name' with
  | some lg => (lg, tbl)
  | none =>
    let logger := newLoggerNamed name'
    match tbl.lookupName name' with
    | some lg => (lg, tbl)
    | none => (logger, (name', logger) :: tbl)

/-- Replacement of the value stored under `name` (models mutation through
the shared pointer held by both the table and the caller). -/
def RegisterT.updateName {α : Type} (tbl : RegisterT α) (name : String) (v : α) : RegisterT α :=
  tbl.map (fun p => if p.1 = name then (name, v) else p)

/-- Function `DisableExistingLoggers`: closes every registered logger,
replaces the logger table with an empty one, recreates the root logger via
`GetLogger` and attaches one fresh `NewStreamHandler` to it (the
registered root and the returned root are the same object in Go, so the
table entry reflects the added handler).  Returns the closed old logger
objects (what stale references observe) and the new table. -/
def DisableExistingLoggers (tbl : RegisterT Logger) : List Logger × RegisterT Logger :=
  let closed := tbl.map (fun p => p.2.CloseAll)
  let fresh := GetLogger [] "root"
  let root1 := fresh.1.AddHandler [Handler.stream NewStreamHandler]
  (closed, fresh.2.updateName "root" root1)

/-! ## Shared helper lemmas and sample inputs -/

theorem string_data_append (s t : String) : (s ++ t).data = s.data ++ t.data := rfl

theorem string_eq_of_data {s t : String} (h : s.data = t.data) : s = t := by
  cases s
  cases t
  exact congrArg String.mk h

instance listEqNilDecidable {α : Type _} (l : List α) : Decidable (l = []) :=
  match l with
  | [] => Decidable.isTrue rfl
  | _ :: _ => Decidable.isFalse (fun h => List.noConfusion h)

/-- A concrete record used by witnesses. -/
def sampleRecord (lvl : Int) (msg : String) (args : List GoValue)
    (flds : List (String × GoValue)) : LogRecord :=
  { Name := "root", Level := lvl, LevelName := GetLevelName nameLevels0 lvl,
    PathName := "/a/b.go", FileName := "b.go", FuncName := "pkg.F", ShortFuncName := "F",
    Line := 7, Time := 0, Msg := msg, Args := args, Fields := flds }

/-! ## Claims -/

/-- Claim C1: `Logger.Handle` drops a record silently exactly when the
record's level is strictly below the logger's level; otherwise it fans the
record out to every attached handler in insertion order.  In particular,
for registered levels L1 < L2, a logger at L2 suppresses a record at L1
and passes a record at or above L2. -/
theorem logger_dispatch_spec (ict : Bool) (lg : Logger) (r : LogRecord) :
    (lg.Filter r = true ↔ r.Level < lg.Level)
    ∧ (r.Level < lg.Level → lg.Handle ict r = lg)
    ∧ (lg.Level ≤ r.Level →
        (lg.Handle ict r).Handlers = lg.Handlers.map (fun h => h.Handle ict r))
    ∧ (∀ L1 L2 : Int, L1 ∈ registeredLevels → L2 ∈ registeredLevels → L1 < L2 →
        lg.Level = L2 →
        (r.Level = L1 → lg.Filter r = true) ∧ (L2 ≤ r.Level → lg.Filter r = false)) := by
  refine ⟨?_, ?_, ?_, ?_⟩
  · unfold Logger.Filter
    split <;> simp_all
  · intro h
    unfold Logger.Handle Logger.Filter
    simp [h]
  · intro h
    unfold Logger.Handle Logger.Filter Logger.CallHandlers
    simp [not_lt.mpr h]
  · intro L1 L2 _ _ hlt hlv
    constructor
    · intro hr
      unfold Logger.Filter
      simp [hr, hlv, hlt]
    · intro hge
      unfold Logger.Filter
      rw [hlv]
      simp
      omega

theorem logger_dispatch_spec_witness :
    ((newLoggerNamed "w").SetLevel INFO).Handle false (sampleRecord DEBUG "" [] []) =
        (newLoggerNamed "w").SetLevel INFO
    ∧ ((newLoggerNamed "w").SetLevel INFO).Filter (sampleRecord DEBUG "" [] []) = true
    ∧ ((newLoggerNamed "w").SetLevel INFO).Filter (sampleRecord INFO "" [] []) = false
    ∧ (((newLoggerNamed "w").SetLevel INFO).Handle false (sampleRecord INFO "" [] [])).Handlers
        = [] := by
  have h1 := logger_dispatch_spec false ((newLoggerNamed "w").SetLevel INFO)
    (sampleRecord DEBUG "" [] [])
  have h2 := logger_dispatch_spec false ((newLoggerNamed "w").SetLevel INFO)
    (sampleRecord INFO "" [] [])
  refine ⟨h1.2.1 (by decide), (h1.2.2.2 DEBUG INFO (by decide) (by decide) (by decide)
    rfl).1 rfl, ?_, ?_⟩
  · exact (h2.2.2.2 DEBUG INFO (by decide) (by decide) (by decide) rfl).2 (by decide)
  · rw [h2.2.2.1 (by decide)]
    rfl

/-- Claim C2: a stream or file handler suppresses a record exactly when the
record's level is strictly below the handler's own level, independently of
the owning logger; a logger at NOTHING with two handlers routes a DEBUG
record only to the handler whose level is at most DEBUG. -/
theorem handler_filter_spec (ict : Bool) (sh : StreamHandler) (fh : FileHandler)
    (r : LogRecord) :
    (sh.Filter r = true ↔ r.Level < sh.Level)
    ∧ (fh.Filter r = true ↔ r.Level < fh.Level)
    ∧ (∀ (lg : Logger) (h1 h2 : StreamHandler),
        lg.Level = NOTHING → r.Level = DEBUG →
        lg.Handlers = [Handler.stream h1, Handler.stream h2] →
        h1.Level ≤ DEBUG → DEBUG < h2.Level →
        (lg.Handle ict r).Handlers = [Handler.stream (h1.Emit ict r), Handler.stream h2]
        ∧ (h1.Emit ict r).output
            = h1.output ++ [(Formatter.Format ict h1.Formatter r).1 ++ "\n"]) := by
  refine ⟨?_, ?_, ?_⟩
  · unfold StreamHandler.Filter
    split <;> simp_all
  · unfold FileHandler.Filter
    split <;> simp_all
  · intro lg h1 h2 hlv hr hhs hle hgt
    have hnotfilter : lg.Filter r = false := by
      unfold Logger.Filter
      rw [hlv, hr]
      simp [DEBUG, NOTHING]
    have h1pass : h1.Filter r = false := by
      unfold StreamHandler.Filter
      rw [hr]
      simp
      unfold DEBUG at hle ⊢
      omega
    have h2block : h2.Filter r = true := by
      unfold StreamHandler.Filter
      rw [hr]
      simp [hgt]
    constructor
    · unfold Logger.Handle
      rw [hnotfilter]
      unfold Logger.CallHandlers
      rw [hhs]
      simp [Handler.Handle, StreamHandler.Handle, h1pass, h2block]
    · rfl

/-- A stream handler at WARN verbosity, for the C2 witness. -/
def warnStreamHandler : StreamHandler :=
  { NewStreamHandler with Level := WARN }

/-- A NOTHING-level logger with two handlers at different verbosity, for
the C2 witness. -/
def twoHandlerLogger : Logger :=
  { Name := "w",
    Handlers := [Handler.stream NewStreamHandler, Handler.stream warnStreamHandler],
    Level := NOTHING, funcCallDepth := 2, runtimeCaller := false }

theorem handler_filter_spec_witness :
    warnStreamHandler.Filter (sampleRecord DEBUG "" [] []) = true
    ∧ (twoHandlerLogger.Handle false (sampleRecord DEBUG "" [] [])).Handlers
      = [Handler.stream (NewStreamHandler.Emit false (sampleRecord DEBUG "" [] [])),
         Handler.stream warnStreamHandler] := by
  have h := handler_filter_spec false warnStreamHandler
    NewFileHandler (sampleRecord DEBUG "" [] [])
  refine ⟨(h.1).mpr (by decide), ?_⟩
  exact (h.2.2 twoHandlerLogger NewStreamHandler warnStreamHandler
    rfl rfl rfl (by decide) (by decide)).1

/-- Claim C3: record construction removes a trailing `Fields` map from the
argument sequence and stores it as the record's field set; when the last
argument is not a `Fields` map (or the list is empty) the field set is
empty and the argument sequence is unchanged. -/
theorem record_field_extraction_spec (tbl : List (Int × String)) (now : Nat)
    (name : String) (level : Int) (path funcn : String) (line : Int) (msg : String)
    (args : List GoValue) :
    (∀ (pre : List GoValue) (f : List (String × GoValue)),
       args = pre ++ [GoValue.fieldsv f] →
       (NewLogRecord tbl now name level path funcn line msg args).Args = pre
       ∧ (NewLogRecord tbl now name level path funcn line msg args).Fields = f)
    ∧ ((∀ f, args.getLast? ≠ some (GoValue.fieldsv f)) →
       (NewLogRecord tbl now name level path funcn line msg args).Args = args
       ∧ (NewLogRecord tbl now name level path funcn line msg args).Fields = []) := by
  constructor
  · intro pre f hargs
    subst hargs
    unfold NewLogRecord LogRecord.ExtractFieldsFromArgs
    simp
  · intro hlast
    unfold NewLogRecord LogRecord.ExtractFieldsFromArgs
    cases hl : args.getLast? with
    | none => simp [hl]
    | some v =>
      cases v with
      | str s => simp [hl]
      | int n => simp [hl]
      | fieldsv f => exact absurd hl (hlast f)

theorem record_field_extraction_spec_witness :
    (NewLogRecord nameLevels0 0 "n" 1 "/a/b.go" "x/pkg.F" 3 "m"
        [GoValue.str "x", GoValue.fieldsv [("k", GoValue.str "v")]]).Args
      = [GoValue.str "x"]
    ∧ (NewLogRecord nameLevels0 0 "n" 1 "/a/b.go" "x/pkg.F" 3 "m"
        [GoValue.str "x", GoValue.fieldsv [("k", GoValue.str "v")]]).Fields
      = [("k", GoValue.str "v")]
    ∧ (NewLogRecord nameLevels0 0 "n" 1 "/a/b.go" "x/pkg.F" 3 "m"
        [GoValue.str "x"]).Args = [GoValue.str "x"]
    ∧ (NewLogRecord nameLevels0 0 "n" 1 "/a/b.go" "x/pkg.F" 3 "m"
        [GoValue.str "x"]).Fields = [] := by
  have h1 := (record_field_extraction_spec nameLevels0 0 "n" 1 "/a/b.go" "x/pkg.F" 3 "m"
    [GoValue.str "x", GoValue.fieldsv [("k", GoValue.str "v")]]).1
    [GoValue.str "x"] [("k", GoValue.str "v")] rfl
  have h2 := (record_field_extraction_spec nameLevels0 0 "n" 1 "/a/b.go" "x/pkg.F" 3 "m"
    [GoValue.str "x"]).2 (by intro f h; simp at h)
  exact ⟨h1.1, h1.2, h2.1, h2.2⟩

/-- Claim C5: the JSON formatter's data object has exactly the keys time,
message, file, line, level, plus a `_fields` key exactly when the record's
field set is non-empty, in which case `_fields` holds exactly the record's
field pairs. -/
theorem json_formatter_fields_spec (jf : JsonFormatter) (r : LogRecord) :
    (jf.formatData r).map Prod.fst
      = ["time", "message", "file", "line", "level"]
        ++ (if r.Fields = [] then [] else ["_fields"])
    ∧ List.lookup "_fields" (jf.formatData r)
      = (if r.Fields = [] then none else some (JValue.fv r.Fields)) := by
  unfold JsonFormatter.formatData
  cases hf : r.Fields with
  | nil => simp [List.lookup]
  | cons a l => simp [List.lookup]

/-- Claim C10: `GetLevelName` returns the registered display name for a
registered level and the synthesized `"level <N>"` string otherwise, never
failing; `GetLevelByName` returns the registered level for a known name and
panics (modelled as `Except.error`) for an unknown one. -/
theorem level_lookup_spec :
    (∀ (tbl : List (Int × String)) (level : Int),
       (∀ n, tbl.lookup level = some n → GetLevelName tbl level = n)
       ∧ (tbl.lookup level = none →
          GetLevelName tbl level = "level " ++ toString level))
    ∧ (∀ (tbl : List (String × Int)) (nm : String),
       (∀ v, tbl.lookup nm = some v → GetLevelByName tbl nm = Except.ok v)
       ∧ (tbl.lookup nm = none →
          GetLevelByName tbl nm = Except.error ("can not find level by name: " ++ nm))) := by
  constructor
  · intro tbl level
    constructor
    · intro n h
      unfold GetLevelName
      rw [h]
    · intro h
      unfold GetLevelName
      rw [h]
  · intro tbl nm
    constructor
    · intro v h
      unfold GetLevelByName
      rw [h]
    · intro h
      unfold GetLevelByName
      rw [h]

theorem level_lookup_spec_witness :
    GetLevelName nameLevels0 32 = "CRITICAL"
    ∧ GetLevelName nameLevels0 3 = "level 3"
    ∧ GetLevelByName levelNames0 "WARNING" = Except.ok 4
    ∧ GetLevelByName levelNames0 "FATAL"
        = Except.error ("can not find level by name: " ++ "FATAL") := by
  refine ⟨(level_lookup_spec.1 nameLevels0 32).1 "CRITICAL" (by decide),
    (level_lookup_spec.1 nameLevels0 3).2 (by decide),
    (level_lookup_spec.2 levelNames0 "WARNING").1 4 (by decide),
    (level_lookup_spec.2 levelNames0 "FATAL").2 (by decide)⟩

/-- Claim C8: duplicate registration under one name in one registry table
panics; `GetLogger` maps the empty name to "root" and, called twice with
the same name, returns the identical logger and leaves the table
unchanged. -/
theorem registry_spec :
    (∀ (α : Type) (tbl : RegisterT α) (name : String) (v cur : α),
       tbl.lookupName name = some cur →
       tbl.register name v = Except.error ("Repeated registration key: " ++ name))
    ∧ (∀ (α : Type) (tbl : RegisterT α) (name : String) (v w : α),
       tbl.lookupName name = none →
       tbl.register name v = Except.ok ((name, v) :: tbl)
       ∧ RegisterT.register ((name, v) :: tbl) name w
           = Except.error ("Repeated registration key: " ++ name))
    ∧ (∀ tbl : RegisterT Logger, GetLogger tbl "" = GetLogger tbl "root")
    ∧ (∀ (tbl : RegisterT Logger) (name : String),
       GetLogger (GetLogger tbl name).2 name = GetLogger tbl name) := by
  refine ⟨?_, ?_, ?_, ?_⟩
  · intro α tbl name v cur h
    unfold RegisterT.register
    rw [h]
  · intro α tbl name v w h
    constructor
    · unfold RegisterT.register
      rw [h]
    · unfold RegisterT.register RegisterT.lookupName
      simp [List.lookup]
  · intro tbl
    rfl
  · intro tbl name
    unfold GetLogger
    cases h : RegisterT.lookupName tbl (if name = "" then "root" else name) with
    | some lg => simp [h]
    | none =>
      simp only [h]
      unfold RegisterT.lookupName
      simp [List.lookup]

theorem registry_spec_witness :
    RegisterT.register [("default", DefaultFormatter)] "default" TerminalFormatter
      = Except.error ("Repeated registration key: " ++ "default")
    ∧ GetLogger [] "" = GetLogger [] "root"
    ∧ GetLogger (GetLogger [] "x").2 "x" = GetLogger [] "x" := by
  exact ⟨registry_spec.1 TextFormatter [("default", DefaultFormatter)] "default"
      TerminalFormatter DefaultFormatter rfl,
    registry_spec.2.2.1 [], registry_spec.2.2.2 [] "x"⟩

/-- The root logger as rebuilt by `DisableExistingLoggers`. -/
def rootAfterReset : Logger :=
  { newLoggerNamed "root" with Handlers := [Handler.stream NewStreamHandler] }

/-- Claim C9: after `DisableExistingLoggers`, every previously registered
logger has been closed (old references observe closed file sinks), the
logger table holds no old entries — it contains exactly one fresh root —
and `GetLogger "root"` returns a usable root logger carrying one freshly
constructed default-output handler. -/
theorem disable_existing_loggers_spec (tbl : RegisterT Logger) :
    (DisableExistingLoggers tbl).1 = tbl.map (fun p => p.2.CloseAll)
    ∧ (∀ lg ∈ (DisableExistingLoggers tbl).1,
        ∀ fh : FileHandler, Handler.file fh ∈ lg.Handlers → fh.outputOpen = false)
    ∧ (DisableExistingLoggers tbl).2 = [("root", rootAfterReset)]
    ∧ GetLogger (DisableExistingLoggers tbl).2 "root"
        = (rootAfterReset, (DisableExistingLoggers tbl).2)
    ∧ rootAfterReset.Handlers = [Handler.stream NewStreamHandler]
    ∧ NewStreamHandler.sink = "stderr"
    ∧ NewStreamHandler.output = [] := by
  refine ⟨rfl, ?_, rfl, rfl, rfl, rfl, rfl⟩
  intro lg hmem fh hfh
  unfold DisableExistingLoggers at hmem
  simp only at hmem
  rcases List.mem_map.mp hmem with ⟨p, _, hp⟩
  subst hp
  unfold Logger.CloseAll at hfh
  simp only at hfh
  rcases List.mem_map.mp hfh with ⟨h0, _, hh⟩
  cases h0 with
  | null n => exact absurd hh (by simp [Handler.Close])
  | stream s => exact absurd hh (by simp [Handler.Close])
  | file f =>
    have : fh = { f with outputOpen := false } := by
      have := congrArg (fun h => match h with
        | Handler.file g => g
        | _ => fh) hh
      simpa [Handler.Close] using this.symm
    rw [this]

theorem disable_existing_loggers_spec_witness :
    (DisableExistingLoggers [("old", rootAfterReset.AddHandler
        [Handler.file { NewFileHandler with Path := "/tmp/x" }])]).2
      = [("root", rootAfterReset)]
    ∧ (∀ lg ∈ (DisableExistingLoggers [("old", rootAfterReset.AddHandler
          [Handler.file { NewFileHandler with Path := "/tmp/x" }])]).1,
        ∀ fh : FileHandler, Handler.file fh ∈ lg.Handlers → fh.outputOpen = false) := by
  have h := disable_existing_loggers_spec [("old", rootAfterReset.AddHandler
    [Handler.file { NewFileHandler with Path := "/tmp/x" }])]
  exact ⟨h.2.2.1, h.2.1⟩

/-- Claim C6 counterexample: the built-in default text template does not
spell its reset-color token `endColor`; the claimed template string
differs from the code's. -/
theorem default_format_counterexample :
    DEFAULT_FORMAT
      ≠ "%(color)[%(time)] [%(levelname)] [%(filename):%(lineno)]%(endColor) %(message)" := by
  decide

/-- Claim C6 (amended): the default text template spells the reset-color
token `end_color` — it is exactly
`%(color)[%(time)] [%(levelname)] [%(filename):%(lineno)]%(end_color) %(message)` —
and the default date template is exactly `%Y-%m-%d %H:%M:%S`; the text
formatter recognizes `end_color` (not `endColor`, which passes through
verbatim as an unknown token). -/
theorem default_templates_spec :
    DEFAULT_FORMAT
      = "%(color)[%(time)] [%(levelname)] [%(filename):%(lineno)]%(end_color) %(message)"
    ∧ DEFAULT_TIME_FORMAT = "%Y-%m-%d %H:%M:%S"
    ∧ (∀ (d c e : String) (r : LogRecord), fieldSub d c e r "end_color" = e)
    ∧ (∀ (d c e : String) (r : LogRecord),
        fieldSub d c e r "endColor" = "%(" ++ "endColor" ++ ")") := by
  exact ⟨rfl, rfl, fun d c e r => rfl, fun d c e r => rfl⟩

/-- A record with only the message template and args populated, as used by
message-rendering counterexamples. -/
def msgRecord (msg : String) (args : List GoValue) : LogRecord :=
  sampleRecord DEBUG msg args []

/-- Claim C4 counterexample: with an empty template, args `["a", "b"]`
render as `"ab"` — `fmt.Sprint` adds no space between two string
operands — not as the space-joined `"a b"`. -/
theorem get_message_counterexample :
    (msgRecord "" [GoValue.str "a", GoValue.str "b"]).GetMessage = "ab"
    ∧ (msgRecord "" [GoValue.str "a", GoValue.str "b"]).GetMessage ≠ "a b" := by
  constructor <;> decide

/-- Claim C4 (amended): with an empty template, `GetMessage` renders
`fmt.Sprint` of the arguments, which concatenates their string
representations inserting a space only between two operands neither of
which is a string (so `["a","b"]` gives `"ab"` while two integers give
`"1 2"`); with a non-empty template it substitutes the arguments
positionally printf-style (`"%s-%s"` with `["a","b"]` gives `"a-b"`). -/
theorem get_message_spec :
    (∀ r : LogRecord,
       (r.Msg = "" → r.GetMessage = fmtSprint r.Args)
       ∧ (r.Msg ≠ "" → r.GetMessage = fmtSprintf r.Msg r.Args))
    ∧ (∀ a b : String, fmtSprint [GoValue.str a, GoValue.str b] = a ++ b)
    ∧ (∀ m n : Int,
        fmtSprint [GoValue.int m, GoValue.int n] = toString m ++ " " ++ toString n)
    ∧ (∀ a b : String, fmtSprintf "%s-%s" [GoValue.str a, GoValue.str b]
        = a ++ "-" ++ b) := by
  refine ⟨?_, ?_, ?_, ?_⟩
  · intro r
    constructor
    · intro h
      unfold LogRecord.GetMessage
      rw [if_pos h]
    · intro h
      unfold LogRecord.GetMessage
      rw [if_neg h]
  · intro a b
    apply string_eq_of_data
    simp [fmtSprint, goString, GoValue.isStr, string_data_append]
  · intro m n
    apply string_eq_of_data
    simp [fmtSprint, goString, GoValue.isStr, string_data_append]
  · intro a b
    apply string_eq_of_data
    show fmtSprintfAux ['%', 's', '-', '%', 's'] [GoValue.str a, GoValue.str b]
      = (a ++ "-" ++ b).data
    simp [fmtSprintfAux, renderVerb, isFmtVerb, string_data_append]

theorem get_message_spec_witness :
    (msgRecord "" [GoValue.int 1, GoValue.int 2]).GetMessage
      = fmtSprint [GoValue.int 1, GoValue.int 2]
    ∧ (msgRecord "%s-%s" [GoValue.str "a", GoValue.str "b"]).GetMessage
      = fmtSprintf "%s-%s" [GoValue.str "a", GoValue.str "b"]
    ∧ fmtSprintf "%s-%s" [GoValue.str "a", GoValue.str "b"] = "a" ++ "-" ++ "b" := by
  exact ⟨(get_message_spec.1 (msgRecord "" [GoValue.int 1, GoValue.int 2])).1 rfl,
    (get_message_spec.1 (msgRecord "%s-%s" [GoValue.str "a", GoValue.str "b"])).2
      (by decide),
    get_message_spec.2.2.2 "a" "b"⟩

/-! ## Token scanner lemmas (for the text formatter claim) -/

theorem tryTok_word (w rest : List Char) (hne : w ≠ [])
    (hw : ∀ c ∈ w, isWordChar c = true) :
    tryTok ('%' :: '(' :: (w ++ ')' :: rest)) = some (w, rest) := by
  obtain ⟨c0, w', rfl⟩ : ∃ c0 w', w = c0 :: w' := by
    cases w with
    | nil => exact absurd rfl hne
    | cons a l => exact ⟨a, l, rfl⟩
  have htake : ((c0 :: w') ++ ')' :: rest).takeWhile isWordChar = c0 :: w' := by
    rw [List.takeWhile_append_of_pos hw]
    simp [List.takeWhile_cons, isWordChar]
  have hdrop : ((c0 :: w') ++ ')' :: rest).dropWhile isWordChar = ')' :: rest := by
    rw [List.dropWhile_append_of_pos hw]
    simp [List.dropWhile_cons, isWordChar]
  simp only [List.cons_append] at htake hdrop
  simp [tryTok, htake, hdrop]

theorem tryTok_length {l w r' : List Char} (h : tryTok l = some (w, r')) :
    r'.length + 3 ≤ l.length := by
  unfold tryTok at h
  split at h
  · rename_i rest
    split at h
    · rename_i c0 w0 r0 htake hdrop
      injection h with h
      injection h with hw hr
      subst hr
      have hsplit := List.takeWhile_append_dropWhile isWordChar rest
      rw [htake, hdrop] at hsplit
      have := congrArg List.length hsplit
      simp at this
      simp
      omega
    · exact absurd h (by simp)
  · exact absurd h (by simp)

theorem replaceTokensF_congr (f : List Char → List Char) :
    ∀ (n m : Nat) (l : List Char), l.length ≤ n → l.length ≤ m →
      replaceTokensF f n l = replaceTokensF f m l := by
  intro n
  induction n with
  | zero =>
    intro m l hn _
    have : l = [] := by
      cases l with
      | nil => rfl
      | cons c cs => simp at hn
    subst this
    simp [replaceTokensF]
  | succ k ih =>
    intro m l hn hm
    cases l with
    | nil => simp [replaceTokensF]
    | cons c rest =>
      cases m with
      | zero => simp at hm
      | succ j =>
        simp only [replaceTokensF]
        cases htok : tryTok (c :: rest) with
        | none =>
          simp only [htok]
          have hrest : rest.length ≤ k := by
            simp at hn
            omega
          have hrest' : rest.length ≤ j := by
            simp at hm
            omega
          rw [ih j rest hrest hrest']
        | some pr =>
          obtain ⟨w, r'⟩ := pr
          have hlen := tryTok_length htok
          simp only [htok]
          have h1 : r'.length ≤ k := by
            simp at hlen hn
            omega
          have h2 : r'.length ≤ j := by
            simp at hlen hm
            omega
          rw [ih j r' h1 h2]

theorem replaceTokensF_tok (f : List Char → List Char) (n : Nat) (w rest : List Char)
    (hne : w ≠ []) (hw : ∀ c ∈ w, isWordChar c = true) :
    replaceTokensF f (n + 1) ('%' :: '(' :: (w ++ ')' :: rest))
      = f w ++ replaceTokensF f n rest := by
  simp only [replaceTokensF]
  rw [tryTok_word w rest hne hw]

theorem replaceTokens_tok (f : List Char → List Char) (w rest : List Char)
    (hne : w ≠ []) (hw : ∀ c ∈ w, isWordChar c = true) :
    replaceTokens f ('%' :: '(' :: (w ++ ')' :: rest)) = f w ++ replaceTokens f rest := by
  unfold replaceTokens
  have hlen : ('%' :: '(' :: (w ++ ')' :: rest)).length = (w.length + rest.length + 2) + 1 := by
    simp
    omega
  rw [hlen, replaceTokensF_tok f (w.length + rest.length + 2) w rest hne hw]
  congr 1
  exact replaceTokensF_congr f (w.length + rest.length + 2) rest.length rest
    (by omega) (by omega)

/-- A template consisting purely of `%(word)` placeholder tokens, one per
word in the list. -/
def tokList : List (List Char) → List Char
  | [] => []
  | w :: ws => '%' :: '(' :: (w ++ ')' :: tokList ws)

theorem replaceTokens_tokList (f : List Char → List Char) (ws : List (List Char))
    (h : ∀ w ∈ ws, w ≠ [] ∧ ∀ c ∈ w, isWordChar c = true) :
    replaceTokens f (tokList ws) = (ws.map f).flatten := by
  induction ws with
  | nil => simp [tokList, replaceTokens, replaceTokensF]
  | cons w ws ih =>
    have hw := h w (by simp)
    rw [tokList, replaceTokens_tok f w (tokList ws) hw.1 hw.2]
    rw [ih (fun v hv => h v (by simp [hv]))]
    simp

theorem tokList_append (a b : List (List Char)) :
    tokList (a ++ b) = tokList a ++ tokList b := by
  induction a with
  | nil => simp [tokList]
  | cons w ws ih => simp [tokList, ih]

theorem formatFields_nil {r : LogRecord} (hF : r.Fields = []) :
    TextFormatter.formatFields r = "%(color)%(end_color)" := by
  unfold TextFormatter.formatFields
  rw [hF]
  rfl

theorem fmtSprintf_int (n : Int) : fmtSprintf "%d" [GoValue.int n] = toString n := by
  apply string_eq_of_data
  show fmtSprintfAux ['%', 'd'] [GoValue.int n] = (toString n).data
  simp [fmtSprintfAux, isFmtVerb, renderVerb]

/-- The placeholder words recognized by the text formatter's callback. -/
def recognizedTokens : List String :=
  ["name", "time", "levelno", "levelname", "pathname", "filename",
   "funcname", "lineno", "message", "color", "end_color"]

/-- Claim C7: the text formatter substitutes every recognized `%(word)`
placeholder with the corresponding record value, leaves every unrecognized
`%(word)` placeholder in the output verbatim, and never returns an error.
The last conjunct renders an arbitrary all-placeholder template (with
colors off and no record fields, so that the appended field suffix renders
empty): the output is the concatenation of the per-token substitutions. -/
theorem text_formatter_spec (ict : Bool) (d : String) (r : LogRecord)
    (hF : r.Fields = []) :
    (∀ tf : TextFormatter, (TextFormatter.Format ict tf r).2 = none)
    ∧ (∀ c e : String,
        fieldSub d c e r "name" = r.Name
        ∧ fieldSub d c e r "time" = FormatTime r d
        ∧ fieldSub d c e r "levelno" = toString r.Level
        ∧ fieldSub d c e r "levelname" = r.LevelName
        ∧ fieldSub d c e r "pathname" = r.PathName
        ∧ fieldSub d c e r "filename" = r.FileName
        ∧ fieldSub d c e r "funcname" = r.ShortFuncName
        ∧ fieldSub d c e r "lineno" = toString r.Line
        ∧ fieldSub d c e r "message" = r.GetMessage
        ∧ fieldSub d c e r "color" = c
        ∧ fieldSub d c e r "end_color" = e)
    ∧ (∀ (c e : String) (w : String), w ∉ recognizedTokens →
        fieldSub d c e r w = "%(" ++ w ++ ")")
    ∧ (∀ ws : List (List Char), ws ≠ [] →
        (∀ w ∈ ws, w ≠ [] ∧ ∀ ch ∈ w, isWordChar ch = true) →
        (TextFormatter.Format ict
            { Fmt := String.mk (tokList ws), DateFmt := d, EnableColors := false } r).1
          = String.mk
              ((ws.map (fun w => (fieldSub d "" "" r (String.mk w)).data)).flatten)) := by
  refine ⟨fun _ => rfl, ?_, ?_, ?_⟩
  · intro c e
    refine ⟨rfl, rfl, ?_, rfl, rfl, rfl, rfl, ?_, rfl, rfl, rfl⟩
    · exact fmtSprintf_int r.Level
    · exact fmtSprintf_int r.Line
  · intro c e w hw
    unfold recognizedTokens at hw
    simp only [List.mem_cons, List.not_mem_nil, or_false, not_or] at hw
    obtain ⟨h1, h2, h3, h4, h5, h6, h7, h8, h9, h10, h11⟩ := hw
    simp [fieldSub, h1, h2, h3, h4, h5, h6, h7, h8, h9, h10, h11]
  · intro ws hne hws
    have hne' : String.mk (tokList ws) ≠ "" := by
      cases ws with
      | nil => exact absurd rfl hne
      | cons w ws' =>
        rw [tokList]
        intro h
        have := congrArg String.data h
        simp at this
    unfold TextFormatter.Format
    simp only [if_neg hne', Bool.and_false, if_false]
    have hdata : (String.mk (tokList ws) ++ TextFormatter.formatFields r).data
        = tokList (ws ++ ["color".data, "end_color".data]) := by
      rw [string_data_append, formatFields_nil hF, tokList_append]
      rfl
    rw [hdata]
    rw [replaceTokens_tokList _ (ws ++ ["color".data, "end_color".data]) ?hall]
    case hall =>
      intro w hwmem
      rcases List.mem_append.mp hwmem with hin | hin
      · exact hws w hin
      · simp only [List.mem_cons, List.not_mem_nil, or_false] at hin
        rcases hin with rfl | rfl
        · exact ⟨by decide, by decide⟩
        · exact ⟨by decide, by decide⟩
    have hcolor : (fun w => (fieldSub d "" "" r (String.mk w)).data) "color".data = [] := rfl
    have hend :
        (fun w => (fieldSub d "" "" r (String.mk w)).data) "end_color".data = [] := rfl
    rw [List.map_append, List.flatten_append]
    simp [hcolor, hend]

theorem text_formatter_spec_witness :
    (TextFormatter.Format false
        { Fmt := "%(name)", DateFmt := "", EnableColors := false }
        (sampleRecord DEBUG "m" [] [])).1 = "root"
    ∧ fieldSub "" "c" "e" (sampleRecord DEBUG "m" [] []) "foo" = "%(" ++ "foo" ++ ")" := by
  have h := text_formatter_spec false "" (sampleRecord DEBUG "m" [] []) rfl
  constructor
  · have h4 := h.2.2.2 ["name".data] (by simp) (by decide)
    exact h4.trans (by decide)
  · exact h.2.2.1 "c" "e" "foo" (by decide)

end Logdog
